import Mathlib

/-!
Verification model of the PDF analysis backend (backend.py).

Strings are modelled as lists of characters; the external engines
(PyMuPDF, pytesseract OCR, the spaCy NLP model) appear as parameters or
as abstract per-image outcome fields.  Character classes model the ASCII
behaviour of the Python regex classes.
-/

/-- Python whitespace class (ASCII part of the regex class for spaces). -/
def isSpaceChar (c : Char) : Bool :=
  c = ' ' || c = '\t' || c = '\n' || c = '\r' || c = '\x0b' || c = '\x0c'

/-- ASCII decimal digit. -/
def isDigitChar (c : Char) : Bool := '0' ≤ c && c ≤ '9'

/-- ASCII uppercase letter. -/
def isUpperChar (c : Char) : Bool := 'A' ≤ c && c ≤ 'Z'

/-- ASCII lowercase letter. -/
def isLowerChar (c : Char) : Bool := 'a' ≤ c && c ≤ 'z'

/-- Word character, ASCII model of the regex word class. -/
def isWordChar (c : Char) : Bool :=
  isUpperChar c || isLowerChar c || isDigitChar c || c = '_'

/-- The punctuation kept by clean_text: . , ; : ! ? ( ) - -/
def isAllowedPunct (c : Char) : Bool :=
  c = '.' || c = ',' || c = ';' || c = ':' || c = '!' || c = '?' ||
  c = '(' || c = ')' || c = '-'

/-- Replace every maximal run of whitespace by a single space
(backend.py line 134). -/
def collapseWs : List Char → List Char
  | [] => []
  | [c] => if isSpaceChar c then [' '] else [c]
  | a :: b :: rest =>
    if isSpaceChar a && isSpaceChar b then collapseWs (b :: rest)
    else (if isSpaceChar a then ' ' else a) :: collapseWs (b :: rest)

/-- Drop every character outside the allowed set (backend.py line 136). -/
def filterAllowed (l : List Char) : List Char :=
  l.filter (fun c => isWordChar c || isSpaceChar c || isAllowedPunct c)

/-- Python str.strip: remove whitespace from both ends. -/
def stripWs (l : List Char) : List Char :=
  ((l.dropWhile isSpaceChar).reverse.dropWhile isSpaceChar).reverse

/-- clean_text (backend.py lines 131 to 137): collapse whitespace, drop
disallowed characters, strip the ends. -/
def clean_text (l : List Char) : List Char :=
  stripWs (filterAllowed (collapseWs l))

/-- Python str.isupper on the ASCII model: at least one letter and no
lowercase letter. -/
def pyIsUpper (l : List Char) : Bool :=
  l.any isUpperChar && !(l.any isLowerChar)

/-- The enumerated heading regex of backend.py line 215: one or more
digits, a period, one or more spaces, an uppercase letter. -/
def matchEnum (l : List Char) : Bool :=
  let ds := l.takeWhile isDigitChar
  match l.dropWhile isDigitChar with
  | '.' :: r2 =>
    let sp := r2.takeWhile isSpaceChar
    (!ds.isEmpty) && (!sp.isEmpty) &&
      (match r2.dropWhile isSpaceChar with
       | c :: _ => isUpperChar c
       | [] => false)
  | _ => false

/-- Title-Case words of backend.py line 216: an uppercase letter followed
by lowercase letters, then up to fuel further such words separated by
whitespace, consuming the whole line. -/
def titleWords : Nat → List Char → Bool
  | _, [] => false
  | fuel, c :: rest =>
    isUpperChar c &&
      (let lows := rest.takeWhile isLowerChar
       let r2 := rest.dropWhile isLowerChar
       (!lows.isEmpty) &&
         (match r2, fuel with
          | [], _ => true
          | _ :: _, 0 => false
          | _ :: _, f + 1 =>
            let sp := r2.takeWhile isSpaceChar
            (!sp.isEmpty) && titleWords f (r2.dropWhile isSpaceChar)))

/-- The Title-Case phrase regex of backend.py line 216 (1 to 4 words). -/
def matchTitle (l : List Char) : Bool := titleWords 3 l

/-- Heading test of analyze_document_structure (backend.py lines 213 to
216), with Python operator precedence: the nonempty and length guards
bind only to the uppercase test, not to the two regex alternatives. -/
def isHeading (l : List Char) : Bool :=
  (decide (0 < l.length) && decide (l.length < 100) && pyIsUpper l)
    || matchEnum l || matchTitle l

/-- Heading rule as the spec states it: the length bound guards all
three patterns. -/
def specHeading (l : List Char) : Bool :=
  decide (l.length < 100) && (pyIsUpper l || matchEnum l || matchTitle l)

/-- The 103-character line where the two heading rules disagree. -/
def c1line : List Char := '1' :: '.' :: ' ' :: List.replicate 100 'A'

/-- A named entity as returned by the recognizer: surface text and label. -/
structure Entity where
  text : List Char
  label : List Char
deriving DecidableEq, Repr

/-- Deduplication key of backend.py line 158: lowercased text with label. -/
def entKey (e : Entity) : List Char × List Char :=
  (e.text.map Char.toLower, e.label)

/-- The filter of backend.py lines 150 to 155: drop entities whose
stripped text has length at most 1 or is purely numeric. -/
def keepEntity (e : Entity) : Bool :=
  let t := stripWs e.text
  decide (1 < t.length) && !((!t.isEmpty) && t.all isDigitChar)

/-- The dedup loop of backend.py lines 148 to 166, with the running set
of seen keys made explicit. -/
def dedupEntities : List Entity → List (List Char × List Char) → List Entity
  | [], _ => []
  | e :: es, seen =>
    if keepEntity e = false then dedupEntities es seen
    else if entKey e ∈ seen then dedupEntities es seen
    else e :: dedupEntities es (entKey e :: seen)

/-- The string handed to the NLP model by extract_entities
(backend.py line 142): truncate to 100000 characters, then clean. -/
def nerInput (text : List Char) : List Char :=
  clean_text (text.take 100000)

/-- NER input as the spec words it: clean the full text, then truncate
the cleaned text to a 100000-character prefix. -/
def specNerInput (text : List Char) : List Char :=
  (clean_text text).take 100000

/-- extract_entities (backend.py lines 139 to 168); the spaCy
recognizer is the parameter. -/
def extract_entities (recog : List Char → List Entity)
    (text : List Char) : List Entity :=
  dedupEntities (recog (nerInput text)) []

/-- First occurrence per key, the spec's description of deduplication. -/
def firstPerKey : List Entity → List Entity
  | [] => []
  | e :: es => e :: firstPerKey (es.filter (fun x => !(entKey x = entKey e)))
termination_by l => l.length
decreasing_by
  simp only [List.length_cons]
  exact Nat.lt_succ_of_le (List.length_filter_le _ _)

/-- Join sentence strings with single spaces (backend.py line 182). -/
def joinSentences (ss : List (List Char)) : List Char :=
  List.intercalate [' '] ss

/-- The sentence-based summary: first 5 sentences of the first 10000
characters of the cleaned text, joined with spaces
(backend.py lines 176 to 182). -/
def sentenceSummary (sents : List Char → List (List Char))
    (text : List Char) : List Char :=
  joinSentences ((sents ((clean_text text).take 10000)).take 5)

/-- summarize_text (backend.py lines 170 to 188); spaCy sentence
segmentation is the parameter. -/
def summarize_text (sents : List Char → List (List Char))
    (text : List Char) : List Char :=
  let clean := clean_text text
  let summary := joinSentences ((sents (clean.take 10000)).take 5)
  if summary.length < 100 ∧ 100 < clean.length then
    clean.take 300 ++ ['.', '.', '.']
  else summary

/-- A section of the inferred document outline. -/
structure DocSection where
  heading : List Char
  page : Nat
deriving DecidableEq, Repr

/-- The structure record built by analyze_document_structure. -/
structure DocStructure where
  total_pages : Nat
  sections : List DocSection
  estimated_word_count : Nat
deriving DecidableEq, Repr

/-- Count maximal word-character runs, the word estimate of
backend.py line 205. -/
def countWordsGo : List Char → Bool → Nat
  | [], _ => 0
  | c :: rest, inWord =>
    if isWordChar c then (if inWord then 0 else 1) + countWordsGo rest true
    else countWordsGo rest false

/-- Words on a page (backend.py line 205). -/
def countWords (l : List Char) : Nat := countWordsGo l false

/-- Python str.split on a newline (backend.py line 209). -/
def splitLines : List Char → List (List Char)
  | [] => [[]]
  | c :: rest =>
    if c = '\n' then [] :: splitLines rest
    else
      match splitLines rest with
      | [] => [[c]]
      | line :: more => (c :: line) :: more

/-- The per-line heading scan of backend.py lines 210 to 225: strip the
line, and on a qualifying line close the open section and open a new one
at the current page. -/
def processLines (page : Nat) :
    List (List Char) → List DocSection × Option DocSection →
    List DocSection × Option DocSection
  | [], st => st
  | line :: rest, (secs, cur) =>
    let t := stripWs line
    if isHeading t then
      match cur with
      | some s => processLines page rest (secs ++ [s], some ⟨t, page⟩)
      | none => processLines page rest (secs, some ⟨t, page⟩)
    else processLines page rest (secs, cur)

/-- The page loop of backend.py lines 201 to 225, carrying the combined
text, the word count, the closed sections and the open section. -/
def adsLoop : List (List Char) → Nat →
    List Char × Nat × (List DocSection × Option DocSection) →
    List Char × Nat × (List DocSection × Option DocSection)
  | [], _, st => st
  | pt :: rest, pageNum, (combined, wc, st) =>
    adsLoop rest (pageNum + 1)
      (combined ++ pt, wc + countWords pt,
       processLines (pageNum + 1) (splitLines pt) st)

/-- analyze_document_structure (backend.py lines 190 to 231): the
structure record and the combined text. -/
def analyze_document_structure (pages : List (List Char)) :
    DocStructure × List Char :=
  let st := adsLoop pages 0 ([], 0, ([], none))
  let secs :=
    match st.2.2.2 with
    | some s => st.2.2.1 ++ [s]
    | none => st.2.2.1
  (⟨pages.length, secs, st.2.1⟩, st.1)

/-- A numpy array obtained from a decoded bitmap: 2-dimensional for
grayscale images, 3-dimensional (rows of pixels of channel values)
otherwise.  Channel values are bytes. -/
inductive NpArr where
  | gray (rows : List (List Nat))
  | multi (rows : List (List (List Nat)))
deriving DecidableEq, Repr

/-- An embedded image of the source document, with the outcome of each
fallible external step: decodeOk is whether opening and re-encoding the
embedded bitmap succeeds, ocrResult the pytesseract outcome (none when
recognition raises), chartImage the outcome of re-decoding the
transport encoding for chart analysis. -/
structure RawImage where
  decodeOk : Bool
  ocrResult : Option (List Char)
  ext : List Char
  width : Nat
  height : Nat
  chartImage : Option NpArr
deriving DecidableEq, Repr

/-- The record appended for a fully processed image
(backend.py lines 64 to 71), before chart enrichment. -/
structure ImageRecord where
  page : Nat
  ext : List Char
  width : Nat
  height : Nat
  ocr_text : List Char
  chartImage : Option NpArr
  is_chart : Option Bool
  chart_type : Option (List Char)
deriving DecidableEq, Repr

/-- Build the record of a successfully processed image on a page. -/
def recordOf (page : Nat) (img : RawImage) (t : List Char) : ImageRecord :=
  ⟨page, img.ext, img.width, img.height, t, img.chartImage, none, none⟩

/-- The body of the try block of backend.py lines 44 to 71 for one
image: decode, then recognize; either step may fail. -/
def processImage (page : Nat) (img : RawImage) :
    Except String ImageRecord :=
  if img.decodeOk = false then .error "decode"
  else
    match img.ocrResult with
    | none => .error "ocr"
    | some t => .ok (recordOf page img t)

/-- extract_images_from_pdf (backend.py lines 34 to 76): every failing
image is caught and skipped, the rest are collected in page order then
in-page order, with 1-based page numbers. -/
def extract_images_from_pdf (pages : List (List RawImage)) :
    List ImageRecord :=
  (pages.enum.map (fun pi =>
    pi.2.filterMap (fun img => (processImage (pi.1 + 1) img).toOption))).flatten

/-- Byte difference as numpy computes it on uint8 arrays: subtraction
wraps modulo 256 and abs is the identity on unsigned values. -/
def byteDiff (a b : Nat) : Nat := (b + 256 - a) % 256

/-- Sum of byte differences over the channels of two pixels. -/
def pixDiff (p q : List Nat) : Nat :=
  (List.zip p q).foldl (fun acc ab => acc + byteDiff ab.1 ab.2) 0

/-- Sum a function over adjacent pairs, as numpy diff does. -/
def adjPairSum {α : Type} (f : α → α → Nat) : List α → Nat
  | [] => 0
  | [_] => 0
  | a :: b :: rest => f a b + adjPairSum f (b :: rest)

/-- Sum of absolute differences between vertically adjacent pixels
(backend.py line 103, diff along axis 0). -/
def edgesH (rows : List (List (List Nat))) : Nat :=
  adjPairSum (fun r1 r2 =>
    (List.zip r1 r2).foldl (fun acc pq => acc + pixDiff pq.1 pq.2) 0) rows

/-- Sum of absolute differences between horizontally adjacent pixels
(backend.py line 104, diff along axis 1). -/
def edgesV (rows : List (List (List Nat))) : Nat :=
  rows.foldl (fun acc row => acc + adjPairSum pixDiff row) 0

/-- The channel count, shape index 2 of the numpy array. -/
def channelsOf (rows : List (List (List Nat))) : Nat :=
  ((rows.headD []).headD []).length

/-- Keep only the first three channels (backend.py line 93). -/
def sliceRGB (rows : List (List (List Nat))) : List (List (List Nat)) :=
  rows.map (fun r => r.map (fun p => p.take 3))

/-- The array detect_charts analyzes: RGB channels only when the input
has 4 channels. -/
def analyzedRows (rows : List (List (List Nat))) : List (List (List Nat)) :=
  if channelsOf rows = 4 then sliceRGB rows else rows

/-- Number of distinct color tuples (backend.py line 100). -/
def uniqueColors (rows : List (List (List Nat))) : Nat :=
  rows.flatten.dedup.length

/-- The small constant added to the denominator (backend.py line 107). -/
def chartEps : ℚ := 1 / 10000000000

/-- edge_ratio (backend.py line 107), in exact rational arithmetic. -/
def edge_ratio (rows : List (List (List Nat))) : ℚ :=
  (edgesH rows : ℚ) / ((edgesV rows : ℚ) + chartEps)

/-- detect_charts (backend.py lines 78 to 129). -/
def detect_charts (arr : NpArr) : Bool × Option (List Char) :=
  match arr with
  | .gray _ => (false, none)
  | .multi rows =>
    if channelsOf rows = 1 then (false, none)
    else
      let a := analyzedRows rows
      let r := edge_ratio a
      let isChart :=
        decide (uniqueColors a < 50) &&
          decide ((1 : ℚ) / 2 < r) && decide (r < 2)
      let ct : Option (List Char) :=
        if isChart then
          if (12 : ℚ) / 10 < r then some "bar_chart".data
          else if r < (8 : ℚ) / 10 then some "line_chart".data
          else some "other_chart".data
        else none
      (isChart, ct)

/-- The chart enrichment loop body of backend.py lines 272 to 286: on a
successful re-decode write the classification, setting chart_type only
when a subtype was produced; on failure write is_chart false only. -/
def enrichImage (rec : ImageRecord) : ImageRecord :=
  match rec.chartImage with
  | some arr =>
    let dc := detect_charts arr
    { rec with
        is_chart := some dc.1,
        chart_type := match dc.2 with | some t => some t | none => rec.chart_type }
  | none => { rec with is_chart := some false }

/-- The response assembled by analyze_pdf. -/
structure AnalysisResult where
  summary : List Char
  docStructure : DocStructure
  entities : List Entity
  images : List ImageRecord
  page_count : Nat
deriving DecidableEq, Repr

/-- The pipeline of analyze_pdf (backend.py lines 262 to 300): structure
analysis yields the combined text fed to entity extraction and
summarization; extracted images are enriched with chart data. -/
def analyze_pdf (recog : List Char → List Entity)
    (sents : List Char → List (List Char))
    (pages : List (List Char)) (imgs : List (List RawImage)) :
    AnalysisResult :=
  let sc := analyze_document_structure pages
  { summary := summarize_text sents sc.2
    docStructure := sc.1
    entities := extract_entities recog sc.2
    images := (extract_images_from_pdf imgs).map enrichImage
    page_count := pages.length }

/-- A 2-by-2 image with two channels per pixel. -/
def twoChanImg : List (List (List Nat)) :=
  [[[0, 0], [1, 0]], [[1, 0], [2, 0]]]

/-- A decodable image whose text recognition fails. -/
def ocrFailImg : RawImage :=
  ⟨true, none, "png".data, 1, 1, some (.gray [[0]])⟩

/-- A corrupt image: decoding fails. -/
def badDecodeImg : RawImage :=
  ⟨false, none, "jpg".data, 2, 2, none⟩

/-- A fully processable image. -/
def goodImg : RawImage :=
  ⟨true, some "hello".data, "png".data, 3, 2, some (.gray [[0]])⟩

/-- A second fully processable image. -/
def goodImg2 : RawImage :=
  ⟨true, some "world".data, "jpeg".data, 4, 4, some (.multi twoChanImg)⟩

/-- The text used in the NER-input counterexample: a character, a run of
100000 spaces, a character. -/
def c3text : List Char := 'a' :: (List.replicate 100000 ' ' ++ ['b'])

/-- The recognizer output used in the C9 witness: duplicate keys in
different casings, a purely numeric entity and a one-character one. -/
def c9ents : List Entity :=
  [⟨"Acme".data, "ORG".data⟩, ⟨"ACME".data, "ORG".data⟩,
   ⟨"42".data, "CARDINAL".data⟩, ⟨"x".data, "PERSON".data⟩,
   ⟨"Acme".data, "PERSON".data⟩]

/-- A constant recognizer for the C9 witness. -/
def c9recog : List Char → List Entity := fun _ => c9ents

theorem collapseWs_cons_of_not_space (a : Char) (l : List Char)
    (h : isSpaceChar a = false) : collapseWs (a :: l) = a :: collapseWs l := by
  cases l with
  | nil => simp [collapseWs, h]
  | cons b rest => simp [collapseWs, h]

theorem collapseWs_space_space (l : List Char) :
    collapseWs (' ' :: ' ' :: l) = collapseWs (' ' :: l) := by
  simp only [collapseWs]
  rw [if_pos (by decide)]

theorem collapseWs_replicate_space (n : Nat) :
    collapseWs (List.replicate (n + 1) ' ') = [' '] := by
  induction n with
  | zero => decide
  | succ n ih =>
    rw [List.replicate_succ, List.replicate_succ]
    rw [collapseWs_space_space, ← List.replicate_succ]
    exact ih

theorem collapseWs_replicate_space_append (n : Nat) (c : Char)
    (h : isSpaceChar c = false) :
    collapseWs (List.replicate (n + 1) ' ' ++ [c]) = [' ', c] := by
  induction n with
  | zero =>
    show collapseWs (' ' :: [c]) = [' ', c]
    have hs : isSpaceChar ' ' = true := by decide
    simp [collapseWs, h, hs]
  | succ n ih =>
    rw [List.replicate_succ, List.replicate_succ]
    show collapseWs (' ' :: ' ' :: (List.replicate n ' ' ++ [c])) = [' ', c]
    rw [collapseWs_space_space]
    rw [show (' ' :: (List.replicate n ' ' ++ [c]))
          = (List.replicate (n + 1) ' ' ++ [c]) by rw [List.replicate_succ]; rfl]
    exact ih

theorem c3text_take : c3text.take 100000 = 'a' :: List.replicate 99999 ' ' := by
  rw [c3text]
  rw [show (100000 : Nat) = 99999 + 1 from rfl, List.take_succ_cons]
  rw [List.take_append_of_le_length
        (by rw [List.length_replicate]; norm_num)]
  rw [List.take_replicate]
  rfl

theorem nerInput_c3text : nerInput c3text = ['a'] := by
  rw [nerInput, c3text_take, clean_text]
  rw [collapseWs_cons_of_not_space 'a' _ (by decide)]
  rw [show (99999 : Nat) = 99998 + 1 from rfl, collapseWs_replicate_space]
  decide

theorem clean_text_c3text : clean_text c3text = ['a', ' ', 'b'] := by
  rw [c3text, clean_text]
  rw [collapseWs_cons_of_not_space 'a' _ (by decide)]
  rw [show (100000 : Nat) = 99999 + 1 from rfl,
      collapseWs_replicate_space_append 99999 'b' (by decide)]
  decide

theorem specNerInput_c3text : specNerInput c3text = ['a', ' ', 'b'] := by
  rw [specNerInput, clean_text_c3text]
  exact List.take_of_length_le (by simp)

theorem collapseWs_length_le (l : List Char) :
    (collapseWs l).length ≤ l.length := by
  induction l with
  | nil => simp [collapseWs]
  | cons a t ih =>
    cases t with
    | nil => by_cases h : isSpaceChar a = true <;> simp [collapseWs, h]
    | cons b r =>
      by_cases h : (isSpaceChar a && isSpaceChar b) = true
      · simp only [collapseWs, h, if_true, List.length_cons]
        exact le_trans ih (by simp)
      · simp only [collapseWs, h, if_false, List.length_cons]
        simpa using ih

theorem stripWs_length_le (l : List Char) : (stripWs l).length ≤ l.length := by
  rw [stripWs]
  have h1 : (l.dropWhile isSpaceChar).length ≤ l.length :=
    List.Sublist.length_le (List.dropWhile_sublist _)
  have h2 : (((l.dropWhile isSpaceChar).reverse.dropWhile
      isSpaceChar)).length ≤ (l.dropWhile isSpaceChar).reverse.length :=
    List.Sublist.length_le (List.dropWhile_sublist _)
  simpa using le_trans h2 (by simpa using h1)

theorem clean_text_length_le (l : List Char) :
    (clean_text l).length ≤ l.length := by
  rw [clean_text]
  exact le_trans (stripWs_length_le _)
    (le_trans (List.length_filter_le _ _) (collapseWs_length_le _))

theorem adsLoop_combined (pages : List (List Char)) :
    ∀ (n : Nat) (acc : List Char) (wc : Nat)
      (st : List DocSection × Option DocSection),
    (adsLoop pages n (acc, wc, st)).1 = acc ++ pages.flatten := by
  induction pages with
  | nil => intro n acc wc st; simp [adsLoop]
  | cons pt rest ih =>
    intro n acc wc st
    simp only [adsLoop]
    rw [ih]
    simp

/-- Claim C1: contrary to the claim, the 100-character bound does not
rule every long line out: in the code the bound guards only the
all-uppercase disjunct, so the 103-character line c1line, which matches
the enumerated-prefix pattern, qualifies as a heading even though the
claimed rule (specHeading) rejects it. -/
theorem heading_rule_long_line_qualifies :
    isHeading c1line = true ∧ 100 ≤ c1line.length
      ∧ specHeading c1line = false := by decide

/-- Claim C2 counterexample: an image whose bitmap decodes but whose
recognition fails is not retained; extraction returns no record for it
at all. -/
theorem ocr_failure_image_dropped :
    ocrFailImg.decodeOk = true ∧ ocrFailImg.ocrResult = none
      ∧ extract_images_from_pdf [[ocrFailImg]] = [] := by decide

/-- Claim C2 amended: an image whose text recognition fails is skipped
entirely, exactly as if it were absent; the failure is caught and the
other images of the page are extracted unchanged. -/
theorem ocr_failure_skips_image (pre post : List RawImage) (img : RawImage)
    (h : img.ocrResult = none) :
    extract_images_from_pdf [pre ++ img :: post]
      = extract_images_from_pdf [pre ++ post] := by
  have hnone : ∀ p : Nat, (processImage p img).toOption = none := by
    intro p
    by_cases hd : img.decodeOk = false
    · simp [processImage, hd]; rfl
    · simp [processImage, hd, h]; rfl
  simp only [extract_images_from_pdf, List.enum, List.enumFrom,
    List.map_cons, List.map_nil, List.flatten]
  rw [List.filterMap_append, List.filterMap_append, List.filterMap_cons,
    hnone]

/-- Witness for the amended C2 theorem at a concrete document. -/
theorem ocr_failure_skips_image_witness :
    extract_images_from_pdf [[goodImg] ++ ocrFailImg :: [goodImg2]]
      = extract_images_from_pdf [[goodImg] ++ [goodImg2]] :=
  ocr_failure_skips_image [goodImg] [goodImg2] ocrFailImg rfl

/-- Claim C3 counterexample: on c3text the string handed to the NLP
model (truncate then clean) differs from the spec's clean-then-truncate
description. -/
theorem nerInput_order_counterexample :
    nerInput c3text = ['a'] ∧ specNerInput c3text = ['a', ' ', 'b']
      ∧ nerInput c3text ≠ specNerInput c3text := by
  refine ⟨nerInput_c3text, specNerInput_c3text, ?_⟩
  rw [nerInput_c3text, specNerInput_c3text]
  decide

/-- Claim C3 amended: the string handed to named-entity recognition is
the cleaning of the 100000-character prefix of the combined text
(truncate first, then clean); in particular it never exceeds 100000
characters. -/
theorem nerInput_truncate_then_clean (text : List Char) :
    nerInput text = clean_text (text.take 100000)
      ∧ (nerInput text).length ≤ 100000 := by
  refine ⟨rfl, ?_⟩
  calc (nerInput text).length ≤ (text.take 100000).length :=
        clean_text_length_le _
    _ ≤ 100000 := by rw [List.length_take]; exact min_le_left _ _

/-- Claim C6: the summarizer returns the 300-character prefix of the
cleaned text with an ellipsis marker exactly when the five-sentence
summary of the truncated cleaned text is under 100 characters and the
cleaned text exceeds 100 characters; otherwise it returns the
sentence-based summary unchanged. -/
theorem summarize_fallback_rule (sents : List Char → List (List Char))
    (text : List Char) :
    summarize_text sents text =
      if (sentenceSummary sents text).length < 100
          ∧ 100 < (clean_text text).length
      then (clean_text text).take 300 ++ ['.', '.', '.']
      else sentenceSummary sents text := rfl

/-- Claim C10: the combined text produced by the structure analyzer is
the concatenation of the page texts with no separator, and it is
exactly the text handed to entity extraction and summarization. -/
theorem combined_text_concatenation (pages : List (List Char))
    (recog : List Char → List Entity)
    (sents : List Char → List (List Char))
    (imgs : List (List RawImage)) :
    (analyze_document_structure pages).2 = pages.flatten
    ∧ (analyze_pdf recog sents pages imgs).entities
        = extract_entities recog pages.flatten
    ∧ (analyze_pdf recog sents pages imgs).summary
        = summarize_text sents pages.flatten := by
  have h : (analyze_document_structure pages).2 = pages.flatten := by
    rw [analyze_document_structure]
    simpa using adsLoop_combined pages 0 [] 0 ([], none)
  exact ⟨h, by simp [analyze_pdf, h], by simp [analyze_pdf, h]⟩

theorem filterMap_processImage (p : Nat) (l : List RawImage) :
    l.filterMap (fun img => (processImage p img).toOption)
      = (l.filter (fun i => i.decodeOk && i.ocrResult.isSome)).map
          (fun i => recordOf p i (i.ocrResult.getD [])) := by
  induction l with
  | nil => rfl
  | cons i t ih =>
    rw [List.filterMap_cons, List.filter_cons]
    cases hd : i.decodeOk with
    | false =>
      have hpo : (processImage p i).toOption = none := by
        simp [processImage, hd, Except.toOption]
      simp only [hpo, hd]
      simpa using ih
    | true =>
      cases ho : i.ocrResult with
      | none =>
        have hpo : (processImage p i).toOption = none := by
          simp [processImage, hd, ho, Except.toOption]
        simp only [hpo, hd, ho]
        simpa using ih
      | some s =>
        have hpo : (processImage p i).toOption = some (recordOf p i s) := by
          simp [processImage, hd, ho, Except.toOption]
        simp only [hpo, hd, ho]
        simpa [recordOf, ho] using ih

theorem extract_images_characterization (pages : List (List RawImage)) :
    extract_images_from_pdf pages
      = (pages.enum.map (fun pi =>
          (pi.2.filter (fun i => i.decodeOk && i.ocrResult.isSome)).map
            (fun i => recordOf (pi.1 + 1) i (i.ocrResult.getD [])))).flatten := by
  rw [extract_images_from_pdf]
  simp only [filterMap_processImage]

/-- Claim C7: when exactly one of the embedded images fails to decode
and every other image processes fully, extraction returns exactly the
other images' complete records, in page order then in-page order, and
no record originates from the failing image. -/
theorem image_failure_isolation (pages : List (List RawImage))
    (h1 : pages.flatten.countP (fun i => !i.decodeOk) = 1)
    (h2 : ∀ i ∈ pages.flatten, i.decodeOk = true → i.ocrResult.isSome = true) :
    (extract_images_from_pdf pages).length + 1 = pages.flatten.length
    ∧ extract_images_from_pdf pages
        = (pages.enum.map (fun pi =>
            (pi.2.filter (fun i => i.decodeOk && i.ocrResult.isSome)).map
              (fun i => recordOf (pi.1 + 1) i (i.ocrResult.getD [])))).flatten
    ∧ ∀ r ∈ extract_images_from_pdf pages, ∃ p img, img ∈ pages.flatten
        ∧ img.decodeOk = true ∧ img.ocrResult = some r.ocr_text
        ∧ r = recordOf p img r.ocr_text := by
  have hchar := extract_images_characterization pages
  have hlen : (extract_images_from_pdf pages).length
      = pages.flatten.countP (fun i => i.decodeOk && i.ocrResult.isSome) := by
    rw [hchar, List.length_flatten, List.map_map, List.countP_flatten]
    congr 1
    have : (List.length ∘ fun pi : Nat × List RawImage =>
        (pi.2.filter (fun i => i.decodeOk && i.ocrResult.isSome)).map
          (fun i => recordOf (pi.1 + 1) i (i.ocrResult.getD [])))
        = (fun pi : Nat × List RawImage =>
            pi.2.countP (fun i => i.decodeOk && i.ocrResult.isSome)) := by
      funext pi
      simp [List.countP_eq_length_filter]
    rw [this]
    rw [show (fun pi : Nat × List RawImage =>
        pi.2.countP (fun i => i.decodeOk && i.ocrResult.isSome))
        = (fun l : List RawImage =>
            l.countP (fun i => i.decodeOk && i.ocrResult.isSome)) ∘ Prod.snd
        from rfl]
    rw [← List.map_map, List.enum_map_snd]
  refine ⟨?_, hchar, ?_⟩
  · rw [hlen]
    have hq : pages.flatten.countP (fun i => i.decodeOk && i.ocrResult.isSome)
        = pages.flatten.countP (fun i => i.decodeOk) := by
      apply List.countP_congr
      intro i hi
      constructor
      · intro hb
        exact (Bool.and_elim_left hb)
      · intro hb
        simp [hb, h2 i hi hb]
    rw [hq]
    have hsplit := List.length_eq_countP_add_countP
      (fun i : RawImage => i.decodeOk) pages.flatten
    have hneg : pages.flatten.countP
        (fun i : RawImage => decide ¬(i.decodeOk = true))
        = pages.flatten.countP (fun i => !i.decodeOk) := by
      apply List.countP_congr
      intro i _
      cases hb : i.decodeOk <;> simp [hb]
    rw [hneg, h1] at hsplit
    omega
  · intro r hr
    rw [hchar] at hr
    rcases List.mem_flatten.1 hr with ⟨blk, hblk, hrblk⟩
    rcases List.mem_map.1 hblk with ⟨pi, hpi, rfl⟩
    rcases List.mem_map.1 hrblk with ⟨img, himgf, rfl⟩
    have himg : img ∈ pi.2 := (List.mem_filter.1 himgf).1
    have hq : (img.decodeOk && img.ocrResult.isSome) = true :=
      (List.mem_filter.1 himgf).2
    have hdec : img.decodeOk = true := Bool.and_elim_left hq
    have hsome : img.ocrResult.isSome = true := Bool.and_elim_right hq
    rcases Option.isSome_iff_exists.1 hsome with ⟨s, hs⟩
    refine ⟨pi.1 + 1, img, ?_, hdec, ?_, ?_⟩
    · apply List.mem_flatten.2
      refine ⟨pi.2, ?_, himg⟩
      have hmem := List.mem_map_of_mem Prod.snd hpi
      rwa [List.enum_map_snd] at hmem
    · simp [recordOf, hs]
    · simp [recordOf, hs]

/-- Witness for C7 at a concrete two-page document with one corrupt
image among three. -/
theorem image_failure_isolation_witness :
    (extract_images_from_pdf [[goodImg], [badDecodeImg, goodImg2]]).length + 1
      = ([[goodImg], [badDecodeImg, goodImg2]] :
          List (List RawImage)).flatten.length :=
  (image_failure_isolation [[goodImg], [badDecodeImg, goodImg2]]
    (by decide) (by decide)).1

theorem dedupEntities_eq_firstPerKey (es : List Entity) :
    ∀ seen : List (List Char × List Char),
    dedupEntities es seen
      = firstPerKey ((es.filter keepEntity).filter
          (fun x => decide (entKey x ∉ seen))) := by
  induction es with
  | nil => intro seen; simp [dedupEntities, firstPerKey]
  | cons e t ih =>
    intro seen
    cases hk : keepEntity e with
    | false =>
      have h1 : dedupEntities (e :: t) seen = dedupEntities t seen := by
        simp [dedupEntities, hk]
      have h2 : (e :: t).filter keepEntity = t.filter keepEntity := by
        simp [List.filter_cons, hk]
      rw [h1, h2]
      exact ih seen
    | true =>
      have h2 : (e :: t).filter keepEntity = e :: t.filter keepEntity := by
        simp [List.filter_cons, hk]
      by_cases hs : entKey e ∈ seen
      · have h1 : dedupEntities (e :: t) seen = dedupEntities t seen := by
          simp [dedupEntities, hk, hs]
        have h3 : (e :: t.filter keepEntity).filter
            (fun x => decide (entKey x ∉ seen))
            = (t.filter keepEntity).filter
                (fun x => decide (entKey x ∉ seen)) := by
          simp [List.filter_cons, hs]
        rw [h1, h2, h3]
        exact ih seen
      · have h1 : dedupEntities (e :: t) seen
            = e :: dedupEntities t (entKey e :: seen) := by
          simp [dedupEntities, hk, hs]
        have h3 : (e :: t.filter keepEntity).filter
            (fun x => decide (entKey x ∉ seen))
            = e :: (t.filter keepEntity).filter
                (fun x => decide (entKey x ∉ seen)) := by
          simp [List.filter_cons, hs]
        rw [h1, h2, h3]
        simp only [firstPerKey]
        congr 1
        rw [ih (entKey e :: seen)]
        simp only [List.filter_filter]
        congr 1
        apply List.filter_congr
        intro x _
        by_cases hx : entKey x = entKey e
        · simp [hx, List.mem_cons]
        · by_cases hxs : entKey x ∈ seen <;>
            simp [hx, hxs, List.mem_cons, not_or]

theorem extract_entities_eq (recog : List Char → List Entity)
    (text : List Char) :
    extract_entities recog text
      = firstPerKey ((recog (nerInput text)).filter keepEntity) := by
  rw [extract_entities, dedupEntities_eq_firstPerKey]
  congr 1
  exact List.filter_eq_self.2 (fun a _ => by simp)

theorem firstPerKey_sublist (l : List Entity) :
    (firstPerKey l).Sublist l := by
  induction l using firstPerKey.induct with
  | case1 => simp [firstPerKey]
  | case2 e es ih =>
    simp only [firstPerKey]
    exact List.Sublist.cons₂ e (ih.trans (List.filter_sublist es))

theorem firstPerKey_pairwise (l : List Entity) :
    (firstPerKey l).Pairwise (fun a b => entKey a ≠ entKey b) := by
  induction l using firstPerKey.induct with
  | case1 => simp [firstPerKey]
  | case2 e es ih =>
    simp only [firstPerKey]
    refine List.Pairwise.cons ?_ ih
    intro b hb
    have hbf := (firstPerKey_sublist _).subset hb
    have hne : (!(decide (entKey b = entKey e))) = true :=
      (List.mem_filter.1 hbf).2
    simp only [Bool.not_eq_eq_eq_not, Bool.not_true, decide_eq_false_iff_not] at hne
    exact fun hcontra => hne (hcontra.symm)

/-- Claim C9: extraction output has pairwise distinct case-insensitive
keys, contains only entities passing the length and non-numeric filter,
is a subsequence of the recognizer output, equals the
first-occurrence-per-key reduction of the filtered recognizer output,
and is deterministic. -/
theorem entity_dedup_properties (recog : List Char → List Entity)
    (text : List Char) :
    (extract_entities recog text).Pairwise (fun a b => entKey a ≠ entKey b)
    ∧ (∀ e ∈ extract_entities recog text, keepEntity e = true)
    ∧ (extract_entities recog text).Sublist (recog (nerInput text))
    ∧ extract_entities recog text
        = firstPerKey ((recog (nerInput text)).filter keepEntity)
    ∧ extract_entities recog text = extract_entities recog text := by
  have he := extract_entities_eq recog text
  refine ⟨?_, ?_, ?_, he, rfl⟩
  · rw [he]; exact firstPerKey_pairwise _
  · intro e hmem
    rw [he] at hmem
    have hf := (firstPerKey_sublist _).subset hmem
    exact (List.mem_filter.1 hf).2
  · rw [he]
    exact (firstPerKey_sublist _).trans (List.filter_sublist _)


/-- Witness for C9 on a concrete recognizer output. -/
theorem entity_dedup_properties_witness :
    (extract_entities c9recog []).Pairwise (fun a b => entKey a ≠ entKey b)
    ∧ keepEntity ⟨"Acme".data, "ORG".data⟩ = true :=
  ⟨(entity_dedup_properties c9recog []).1,
   (entity_dedup_properties c9recog []).2.1 _ (by decide)⟩

theorem twoChanImg_ratio :
    edge_ratio (analyzedRows twoChanImg) = 2 / (2 + 1 / 10000000000) := by
  have eh : edgesH (analyzedRows twoChanImg) = 2 := by decide
  have ev : edgesV (analyzedRows twoChanImg) = 2 := by decide
  rw [edge_ratio, eh, ev, chartEps]
  norm_num

/-- Claim C4 counterexample: a two-channel (grayscale plus alpha) image
is not rejected; the classifier analyzes it and here classifies it as a
chart with a subtype. -/
theorem two_channel_classified_as_chart :
    channelsOf twoChanImg = 2
      ∧ detect_charts (.multi twoChanImg) = (true, some "other_chart".data) := by
  refine ⟨by decide, ?_⟩
  have h1 : (1:ℚ)/2 < edge_ratio (analyzedRows twoChanImg) := by
    rw [twoChanImg_ratio]; norm_num
  have h2 : edge_ratio (analyzedRows twoChanImg) < 2 := by
    rw [twoChanImg_ratio]; norm_num
  have h3 : ¬((12:ℚ)/10 < edge_ratio (analyzedRows twoChanImg)) := by
    rw [twoChanImg_ratio]; norm_num
  have h4 : ¬(edge_ratio (analyzedRows twoChanImg) < (8:ℚ)/10) := by
    rw [twoChanImg_ratio]; norm_num
  have hu : uniqueColors (analyzedRows twoChanImg) = 3 := by decide
  have hc : ¬(channelsOf twoChanImg = 1) := by decide
  simp [detect_charts, hu, h1, h2, h3, h4, hc]
  rwa [one_div] at h1

/-- Claim C4 amended: the classifier rejects (false, no subtype) a
grayscale image (2-dimensional array) and an explicitly single-channel
array; a two-channel array is instead analyzed like any multi-channel
image. -/
theorem single_channel_rejected (g : List (List Nat))
    (rows : List (List (List Nat))) (h : channelsOf rows = 1) :
    detect_charts (.gray g) = (false, none)
      ∧ detect_charts (.multi rows) = (false, none) := by
  exact ⟨rfl, by simp [detect_charts, h]⟩

/-- Witness for the amended C4 theorem. -/
theorem single_channel_rejected_witness :
    detect_charts (.gray [[5]]) = (false, none)
      ∧ detect_charts (.multi [[[7]]]) = (false, none) :=
  single_channel_rejected [[5]] [[[7]]] rfl

/-- Claim C5: on a multi-channel array the classifier returns a chart
exactly when the distinct color count is under 50 and the edge ratio is
strictly between one half and two, and the subtype is bar above 1.2,
line below 0.8, other in between; a non-chart result has no subtype. -/
theorem detect_charts_multichannel_rule (rows : List (List (List Nat)))
    (h : ¬(channelsOf rows = 1)) :
    ((detect_charts (.multi rows)).1 = true ↔
      (uniqueColors (analyzedRows rows) < 50
        ∧ (1:ℚ)/2 < edge_ratio (analyzedRows rows)
        ∧ edge_ratio (analyzedRows rows) < 2))
    ∧ ((detect_charts (.multi rows)).1 = true →
        (detect_charts (.multi rows)).2
          = some (if (12:ℚ)/10 < edge_ratio (analyzedRows rows)
              then "bar_chart".data
              else if edge_ratio (analyzedRows rows) < (8:ℚ)/10
              then "line_chart".data else "other_chart".data))
    ∧ ((detect_charts (.multi rows)).1 = false →
        (detect_charts (.multi rows)).2 = none) := by
  simp only [detect_charts, if_neg h]
  refine ⟨?_, ?_, ?_⟩
  · simp [one_div, and_assoc]
  · intro ht
    simp only [Bool.and_eq_true, decide_eq_true_eq] at ht
    obtain ⟨⟨hu, h1⟩, h2⟩ := ht
    rw [one_div] at h1
    simp [hu, h1, h2]
    split_ifs <;> rfl
  · intro hf
    rw [hf, if_neg (by simp)]

/-- Witness for C5 at the concrete two-channel image. -/
theorem detect_charts_multichannel_rule_witness :
    (detect_charts (.multi twoChanImg)).1 = true ↔
      (uniqueColors (analyzedRows twoChanImg) < 50
        ∧ (1:ℚ)/2 < edge_ratio (analyzedRows twoChanImg)
        ∧ edge_ratio (analyzedRows twoChanImg) < 2) :=
  (detect_charts_multichannel_rule twoChanImg (by decide)).1

theorem extract_images_chart_fields (imgs : List (List RawImage)) :
    ∀ r ∈ extract_images_from_pdf imgs,
      r.is_chart = none ∧ r.chart_type = none := by
  intro r hr
  rw [extract_images_characterization] at hr
  rcases List.mem_flatten.1 hr with ⟨blk, hblk, hrblk⟩
  rcases List.mem_map.1 hblk with ⟨pi, _, rfl⟩
  rcases List.mem_map.1 hrblk with ⟨img, _, rfl⟩
  exact ⟨rfl, rfl⟩

/-- Claim C8: a non-chart classification carries no subtype, and in
every pipeline result an image record with is_chart false has no
chart_type, including when the re-decode for classification fails. -/
theorem non_chart_no_subtype_invariant :
    (∀ arr : NpArr, (detect_charts arr).1 = false →
        (detect_charts arr).2 = none)
    ∧ (∀ (recog : List Char → List Entity)
        (sents : List Char → List (List Char))
        (pages : List (List Char)) (imgs : List (List RawImage))
        (r : ImageRecord), r ∈ (analyze_pdf recog sents pages imgs).images →
        r.is_chart = some false → r.chart_type = none) := by
  have hdc : ∀ arr : NpArr, (detect_charts arr).1 = false →
      (detect_charts arr).2 = none := by
    intro arr hf
    match arr with
    | .gray g => rfl
    | .multi rows =>
      by_cases h : channelsOf rows = 1
      · simp [detect_charts, h]
      · simp only [detect_charts, if_neg h] at hf ⊢
        rw [hf, if_neg (by simp)]
  refine ⟨hdc, ?_⟩
  intro recog sents pages imgs r hmem hfalse
  simp only [analyze_pdf] at hmem
  rcases List.mem_map.1 hmem with ⟨r0, hr0, rfl⟩
  have hfields := extract_images_chart_fields imgs r0 hr0
  rw [enrichImage] at hfalse ⊢
  match hci : r0.chartImage with
  | none => simpa [hci] using hfields.2
  | some arr =>
    simp only [hci] at hfalse ⊢
    have hdcf : (detect_charts arr).1 = false := by
      simpa using hfalse
    have h2 := hdc arr hdcf
    simp [h2, hfields.2]

/-- Witness for C8: the classifier part at a grayscale array, and the
pipeline part at a concrete one-image document. -/
theorem non_chart_no_subtype_invariant_witness :
    (detect_charts (.gray [[0]])).2 = none
      ∧ (enrichImage (recordOf 1 goodImg "hello".data)).chart_type = none :=
  ⟨non_chart_no_subtype_invariant.1 _ rfl,
   non_chart_no_subtype_invariant.2 (fun _ => []) (fun _ => []) []
     [[goodImg]] _ (by decide) (by decide)⟩
